import Mathlib

/-!
Verification of the USBDevice core (device-side USB protocol stack).

The repository's `src/Device/usbd_types.h` declares the data model: the
device handle (`USBD_HandleType`), interface handle (`USBD_IfHandleType`),
endpoint handle (`USBD_EpHandleType`), operation results
(`USBD_ReturnType`), string descriptor indexes (`USBD_iStringType`) and
the configuration/serial constants.  The behavioural code (device state
machine, control transfer state machine, descriptor assembler) is not in
the repository snapshot; those operations are modelled from the design
specification, each such definition carrying a doc comment that starts
with `Modelled from the spec:` and names the missing translation unit.
-/

namespace USBD

/-- `USBD_MAX_CONFIGURATION_COUNT` from usbd_types.h: maximum number of
USB configurations per device. -/
def USBD_MAX_CONFIGURATION_COUNT : Nat := 1

/-- `USBD_SERIAL_BCD_SIZE` from usbd_types.h. -/
def USBD_SERIAL_BCD_SIZE : Nat := 12

/-- `USBD_EP0_MAX_PACKET_SIZE` default from usbd_types.h. -/
def USBD_EP0_MAX_PACKET_SIZE : Nat := 64

/-- `USBD_ReturnType` from usbd_types.h: USB device operation results. -/
inductive ReturnType
  | ok
  | error
  | busy
  | invalid
deriving DecidableEq

/-- `USBD_ISTR_LANGID` from the `USBD_iStringType` enum in usbd_types.h. -/
def USBD_ISTR_LANGID : Nat := 0

/-- `USBD_ISTR_VENDOR` from the `USBD_iStringType` enum in usbd_types.h. -/
def USBD_ISTR_VENDOR : Nat := 1

/-- `USBD_ISTR_PRODUCT` from the `USBD_iStringType` enum in usbd_types.h. -/
def USBD_ISTR_PRODUCT : Nat := 2

/-- `USBD_ISTR_SERIAL` from the `USBD_iStringType` enum in usbd_types.h. -/
def USBD_ISTR_SERIAL : Nat := 3

/-- `USBD_ISTR_CONFIG` from the `USBD_iStringType` enum in usbd_types.h. -/
def USBD_ISTR_CONFIG : Nat := 4

/-- `USBD_ISTR_INTERFACES` from usbd_types.h: first string descriptor
index of the interfaces' names. -/
def USBD_ISTR_INTERFACES : Nat := 5

/-- `USB_EndPointStateType`: endpoint transfer state.  Modelled from the
spec: Disabled, Stalled, Idle, or one of the control sub-stages
(`usb_types.h` is not in the snapshot). -/
inductive EpState
  | disabled
  | stalled
  | idle
  | setup
  | dataIn
  | dataOut
  | statusIn
  | statusOut
deriving DecidableEq

/-- The `Transfer` sub-structure of `USBD_EpHandleType`: current data
transfer context (total length and progress, in bytes). -/
structure Transfer where
  length : Nat
  progress : Nat
deriving DecidableEq

/-- `USBD_EpHandleType` from usbd_types.h (the `Data` pointer is kept
abstract; the bookkeeping fields are modelled). -/
structure EpHandle where
  transfer : Transfer
  maxPacketSize : Nat
  state : EpState
  ifNum : Nat
deriving DecidableEq

/-- `USBD_IfHandleType` from usbd_types.h: alternate setting count and
selector; the class binding is modelled by an `initialized` lifecycle
flag (Init called and not yet Deinit). -/
structure IfHandle where
  altCount : Nat
  altSelector : Nat
  initialized : Bool
deriving DecidableEq

/-- Device enumeration state (Default/Addressed/Configured), per spec
section 4.1. -/
inductive DevState
  | dflt
  | addressed
  | configured
deriving DecidableEq

/-- `USBD_HandleType` from usbd_types.h: device features, configuration
selector, interface references and the two endpoint tables.  The device
address is the value forwarded to `SetDeviceAddress`; EP0's two
directions are the always-present index-0 entries of the EP tables. -/
structure Device where
  devState : DevState
  address : Nat
  configSelector : Nat
  selfPowered : Bool
  remoteWakeup : Bool
  interfaces : List IfHandle
  ep0In : EpHandle
  ep0Out : EpHandle
  epIn : List EpHandle
  epOut : List EpHandle
deriving DecidableEq

/-! ## Data-stage chunking (spec section 4.2) -/

/-- Fuel-indexed chunking worker: splits `n` bytes into packets of at
most `mps` bytes, every packet except possibly the last full size. -/
def chunksGo (mps : Nat) : Nat → Nat → List Nat
  | 0, _ => []
  | fuel + 1, n =>
    if 0 < mps ∧ 0 < n then
      if n ≤ mps then [n] else mps :: chunksGo mps fuel (n - mps)
    else []

/-- Modelled from the spec: the Control Transfer State Machine (missing
`usbd.c`) splits an `n`-byte IN payload into packets of at most
`mps` bytes; every packet except possibly the last is full size.
`n` bytes need at most `n` packets, so `n` is enough fuel. -/
def chunksNE (mps n : Nat) : List Nat := chunksGo mps n n

/-- Modelled from the spec: the packet sequence emitted for a
Device-to-Host data stage (missing `usbd.c`): at most `wLength` bytes of
the `total`-byte payload are sent, chunked to `mps`; when the sent length
is an exact multiple of `mps` and shorter than `wLength` a zero-length
packet terminates the sequence. -/
def dataInPackets (mps wLength total : Nat) : List Nat :=
  let len := min total wLength
  let base := chunksNE mps len
  if len < wLength ∧ len % mps = 0 then base ++ [0] else base

/-! ## Device state machine operations (spec section 4.1) -/

/-- Class callback invocations observable on an Interface Slot. -/
inductive CbkEv
  | init (i : Nat)
  | deinit (i : Nat)
  | setupStage (i : Nat)
  | dataStage (i : Nat)
deriving DecidableEq

/-- The interface index a callback event belongs to. -/
def CbkEv.ifIndex : CbkEv → Nat
  | .init i => i
  | .deinit i => i
  | .setupStage i => i
  | .dataStage i => i

/-- Boolean filter: does the callback event belong to interface `i`? -/
def CbkEv.forIf (i : Nat) (e : CbkEv) : Bool := e.ifIndex == i

/-- Modelled from the spec: bus reset / deactivation returns an
Interface Slot to its uninitialized state with alternate setting 0
(missing `usbd.c`). -/
def resetIf (itf : IfHandle) : IfHandle :=
  { itf with altSelector := 0, initialized := false }

/-- Modelled from the spec: configuration activation initializes an
Interface Slot and resets its alternate setting to 0 (missing `usbd.c`). -/
def initIf (itf : IfHandle) : IfHandle :=
  { itf with altSelector := 0, initialized := true }

/-- Modelled from the spec: disabling an Endpoint Slot clears its
transfer descriptor (missing `usbd.c`). -/
def disableEp (ep : EpHandle) : EpHandle :=
  { ep with state := .disabled, transfer := ⟨0, 0⟩ }

/-- Modelled from the spec: EP0 OUT re-armed for the next setup packet
(missing `usbd.c`). -/
def armSetupEp (ep : EpHandle) : EpHandle :=
  { ep with state := .setup, transfer := ⟨0, 0⟩ }

/-- Modelled from the spec: an enabled endpoint waiting with no transfer
in progress (missing `usbd.c`). -/
def idleEp (ep : EpHandle) : EpHandle :=
  { ep with state := .idle, transfer := ⟨0, 0⟩ }

/-- Modelled from the spec: `Reset()` (missing `usbd.c`): clears
address, configuration selector and feature flags, deinitializes every
Interface Slot, disables every non-control Endpoint Slot, re-arms EP0
for the next setup packet.  Total: it is a plain function on `Device`. -/
def reset (d : Device) : Device :=
  { d with
    devState := .dflt
    address := 0
    configSelector := 0
    selfPowered := false
    remoteWakeup := false
    interfaces := d.interfaces.map resetIf
    ep0Out := armSetupEp d.ep0Out
    ep0In := idleEp d.ep0In
    epIn := d.epIn.map disableEp
    epOut := d.epOut.map disableEp }

/-- The `Deinit` callback sequence fired on every Interface Slot, in
interface-index order. -/
def deinitTrace (d : Device) : List CbkEv :=
  (List.range d.interfaces.length).map .deinit

/-- The `Init` callback sequence fired on every Interface Slot, in
interface-index order. -/
def initTrace (d : Device) : List CbkEv :=
  (List.range d.interfaces.length).map .init

/-- Modelled from the spec: `SetAddress(addr)` (missing `usbd.c`):
valid only in Default/Addressed; stores the address and transitions to
Addressed, or back to Default when `addr == 0`. -/
def setAddressR (d : Device) (addr : Nat) : ReturnType × Device :=
  if d.devState = .configured then (.error, d)
  else
    (.ok, { d with
      address := addr
      devState := if addr = 0 then .dflt else .addressed })

/-- Modelled from the spec: `SetConfiguration(cfgIndex)` (missing
`usbd.c`): valid only with an address assigned; `cfgIndex == 0`
deinitializes all Interface Slots and returns to Addressed; the single
supported nonzero value (`USBD_MAX_CONFIGURATION_COUNT = 1`) initializes
every Interface Slot with alternate setting 0, enables the endpoints and
transitions to Configured; any other nonzero value fails with Invalid.
Returns the result, the new state and the fired callback sequence. -/
def setConfigurationR (d : Device) (cfg : Nat) :
    ReturnType × Device × List CbkEv :=
  if d.devState = .dflt then (.invalid, d, [])
  else if cfg = 0 then
    (.ok,
     { d with
       devState := .addressed
       configSelector := 0
       interfaces := d.interfaces.map resetIf
       epIn := d.epIn.map disableEp
       epOut := d.epOut.map disableEp },
     deinitTrace d)
  else if cfg ≤ USBD_MAX_CONFIGURATION_COUNT then
    (.ok,
     { d with
       devState := .configured
       configSelector := cfg
       interfaces := d.interfaces.map initIf
       epIn := d.epIn.map idleEp
       epOut := d.epOut.map idleEp },
     initTrace d)
  else (.invalid, d, [])

/-- Modelled from the spec: `SET_INTERFACE` handling (missing `usbd.c`):
valid only when Configured; selecting an alternate setting outside
`[0, AltCount)` is rejected with Invalid and changes nothing. -/
def setInterfaceR (d : Device) (i a : Nat) : ReturnType × Device :=
  if d.devState = .configured then
    match d.interfaces[i]? with
    | some itf =>
      if a < itf.altCount then
        (.ok, { d with
          interfaces := d.interfaces.set i { itf with altSelector := a } })
      else (.invalid, d)
    | none => (.invalid, d)
  else (.error, d)

/-- Modelled from the spec: arming an endpoint for a fresh transfer of
`len` bytes resets the progress counter (missing `usbd.c`). -/
def armEp (len : Nat) (st : EpState) (ep : EpHandle) : EpHandle :=
  { ep with transfer := ⟨len, 0⟩, state := st }

/-- Modelled from the spec: a completed packet of `n` bytes advances the
progress counter, never beyond the total length (invariant of spec
section 3; missing `usbd.c`). -/
def epProgress (n : Nat) (ep : EpHandle) : EpHandle :=
  { ep with
    transfer :=
      ⟨ep.transfer.length,
       ep.transfer.progress +
         min n (ep.transfer.length - ep.transfer.progress)⟩ }

/-- Apply `f` to the `e`-th element of an endpoint table, if present. -/
def modifyNthEp (f : EpHandle → EpHandle) : List EpHandle → Nat → List EpHandle
  | [], _ => []
  | ep :: rest, 0 => f ep :: rest
  | ep :: rest, n + 1 => ep :: modifyNthEp f rest n

/-- The operations of the core acting on the device state: the inbound
events and requests of spec sections 4.1 and 6. -/
inductive Op
  | busReset
  | setAddr (a : Nat)
  | setConfig (c : Nat)
  | selectAlt (i a : Nat)
  | armIn (e len : Nat)
  | armOut (e len : Nat)
  | xferIn (e n : Nat)
  | xferOut (e n : Nat)
deriving DecidableEq

/-- One core operation applied to the device state. -/
def applyOp (d : Device) : Op → Device
  | .busReset => reset d
  | .setAddr a => (setAddressR d a).2
  | .setConfig c => (setConfigurationR d c).2.1
  | .selectAlt i a => (setInterfaceR d i a).2
  | .armIn e len => { d with epIn := modifyNthEp (armEp len .dataIn) d.epIn e }
  | .armOut e len => { d with epOut := modifyNthEp (armEp len .dataOut) d.epOut e }
  | .xferIn e n => { d with epIn := modifyNthEp (epProgress n) d.epIn e }
  | .xferOut e n => { d with epOut := modifyNthEp (epProgress n) d.epOut e }

/-- A sequence of core operations applied in order. -/
def runOps (d : Device) (ops : List Op) : Device := ops.foldl applyOp d

/-- An Interface Slot as constructed at system init: `ac` alternate
settings, default selector, uninitialized. -/
def mkIf (ac : Nat) : IfHandle := ⟨ac, 0, false⟩

/-- A non-control Endpoint Slot as constructed at system init. -/
def mkEp : EpHandle := ⟨⟨0, 0⟩, USBD_EP0_MAX_PACKET_SIZE, .disabled, 0⟩

/-- Modelled from the spec: the Device as constructed at system init
(missing `usbd.c`): Default state, no address, the fixed Interface Slot
table with the given alternate-setting counts, EP0 armed, non-control
Endpoint Slots disabled. -/
def mkDevice (acs : List Nat) (nIn nOut : Nat) : Device :=
  ⟨.dflt, 0, 0, false, false, acs.map mkIf,
   ⟨⟨0, 0⟩, USBD_EP0_MAX_PACKET_SIZE, .idle, 0⟩,
   ⟨⟨0, 0⟩, USBD_EP0_MAX_PACKET_SIZE, .setup, 0⟩,
   List.replicate nIn mkEp, List.replicate nOut mkEp⟩

/-- The transfer descriptor invariant of spec section 3:
`Progress ≤ Length`. -/
def epOk (ep : EpHandle) : Prop := ep.transfer.progress ≤ ep.transfer.length

instance (ep : EpHandle) : Decidable (epOk ep) :=
  inferInstanceAs (Decidable (_ ≤ _))

/-- `epOk` on every Endpoint Slot of the device: EP0 in both directions
and every entry of both endpoint tables. -/
def devEpOk (d : Device) : Prop :=
  epOk d.ep0In ∧ epOk d.ep0Out ∧
    (∀ ep ∈ d.epIn, epOk ep) ∧ (∀ ep ∈ d.epOut, epOk ep)

instance (d : Device) : Decidable (devEpOk d) :=
  inferInstanceAs (Decidable (_ ∧ _))

/-- The Interface Slot invariant of spec section 3:
`AltSelector < AltCount`. -/
def ifOk (itf : IfHandle) : Prop := itf.altSelector < itf.altCount

instance (itf : IfHandle) : Decidable (ifOk itf) :=
  inferInstanceAs (Decidable (_ < _))

/-- `ifOk` on every Interface Slot of the device. -/
def devIfOk (d : Device) : Prop := ∀ itf ∈ d.interfaces, ifOk itf

instance (d : Device) : Decidable (devIfOk d) :=
  inferInstanceAs (Decidable (∀ itf ∈ d.interfaces, ifOk itf))

/-! ## Setup requests and EP0 dispatch (spec sections 4.2, 6) -/

/-- The request type field of `bmRequestType` (missing `usb_types.h`). -/
inductive ReqKind
  | standard
  | classReq
  | vendorReq
deriving DecidableEq

/-- The recipient field of `bmRequestType` (missing `usb_types.h`). -/
inductive Recipient
  | device
  | iface
  | endpoint
  | other
deriving DecidableEq

/-- `USB_SetupRequestType`: the decoded 8-byte setup packet (missing
`usb_types.h`). -/
structure SetupRequest where
  dirIn : Bool
  kind : ReqKind
  recipient : Recipient
  bRequest : Nat
  wValue : Nat
  wIndex : Nat
  wLength : Nat
deriving DecidableEq

/-- `SET_ADDRESS` standard request code (USB 2.0; missing `usb_types.h`). -/
def USB_REQ_SET_ADDRESS : Nat := 5

/-- `SET_CONFIGURATION` standard request code (USB 2.0; missing
`usb_types.h`). -/
def USB_REQ_SET_CONFIGURATION : Nat := 9

/-- `SET_INTERFACE` standard request code (USB 2.0; missing
`usb_types.h`). -/
def USB_REQ_SET_INTERFACE : Nat := 11

/-- Endpoint direction selector for outbound peripheral commands. -/
inductive Dir
  | dIn
  | dOut
deriving DecidableEq

/-- Outbound commands the core issues to the peripheral controller
(spec section 6). -/
inductive OutCmd
  | armTransmit (ep len : Nat)
  | armReceive (ep len : Nat)
  | stallEp (ep : Nat) (dir : Dir)
  | unstallEp (ep : Nat) (dir : Dir)
  | setDeviceAddress (a : Nat)
deriving DecidableEq

/-- Modelled from the spec: the Interface Slots a forwarded setup
request is offered to (missing `usbd.c`): Interface/Endpoint-recipient
requests target the interface selected by the low byte of `wIndex`;
Device-recipient requests are broadcast to all Interface Slots. -/
def attemptedIfs (d : Device) (req : SetupRequest) : List Nat :=
  match req.recipient with
  | .iface => if req.wIndex % 256 < d.interfaces.length then [req.wIndex % 256] else []
  | .endpoint => if req.wIndex % 256 < d.interfaces.length then [req.wIndex % 256] else []
  | .device => List.range d.interfaces.length
  | .other => []

/-- Modelled from the spec: forwarding a non-standard setup request to
the Interface Slots (missing `usbd.c`).  `accepts i req` is interface
`i`'s `SetupStage` verdict.  If no offered Interface Slot accepts, the
whole control transfer stalls endpoint 0 in both directions; the device
state is untouched and only `SetupStage` callbacks fire. -/
def forwardSetup (accepts : Nat → SetupRequest → Bool) (d : Device)
    (req : SetupRequest) : Device × List OutCmd × List CbkEv :=
  match (attemptedIfs d req).find? (fun i => accepts i req) with
  | some t => (d, [], [.setupStage t])
  | none =>
    (d, [.stallEp 0 .dIn, .stallEp 0 .dOut],
     (attemptedIfs d req).map .setupStage)

/-- Modelled from the spec: EP0 setup dispatch (missing `usbd.c`):
standard requests are handled by the device state machine, class and
vendor requests are forwarded to the Interface Slots. -/
def handleSetup (accepts : Nat → SetupRequest → Bool) (d : Device)
    (req : SetupRequest) : Device × List OutCmd × List CbkEv :=
  if req.kind = .standard then
    if req.bRequest = USB_REQ_SET_ADDRESS then
      ((setAddressR d (req.wValue % 128)).2, [], [])
    else if req.bRequest = USB_REQ_SET_CONFIGURATION then
      let r := setConfigurationR d (req.wValue % 256)
      (r.2.1, [], r.2.2)
    else if req.bRequest = USB_REQ_SET_INTERFACE then
      ((setInterfaceR d (req.wIndex % 256) (req.wValue % 256)).2, [], [])
    else (d, [], [])
  else forwardSetup accepts d req

/-! ## Control transfer state machine over EP0 (spec section 4.2) -/

/-- EP0 inbound events from the peripheral (spec section 6, restricted
to endpoint 0). -/
inductive InEv
  | setupReceived (req : SetupRequest)
  | inComplete
  | outComplete
deriving DecidableEq

/-- Stage of the 3-stage control transfer protocol. -/
inductive CtrlStage
  | ctrlIdle
  | ctrlDataIn
  | ctrlDataOut
  | ctrlStatusIn
  | ctrlStatusOut
deriving DecidableEq

/-- Control transfer state: the current stage and, for a pending
SET_ADDRESS transfer, the stored address to apply after the status
stage. -/
structure Ctrl where
  stage : CtrlStage
  newAddress : Option Nat
deriving DecidableEq

/-- The idle control machine. -/
def ctrlInit : Ctrl := ⟨.ctrlIdle, none⟩

/-- Is the request a standard Device-recipient SET_ADDRESS? -/
def isSetAddress (req : SetupRequest) : Bool :=
  match req.kind, req.recipient, req.bRequest, req.wLength with
  | .standard, .device, 5, 0 => true
  | _, _, _, _ => false

/-- Modelled from the spec: one step of the Control Transfer State
Machine (missing `usbd.c`).  A new setup packet aborts any transfer in
progress; SET_ADDRESS stores the address and arms the status stage; the
stored address is issued to the peripheral (`SetDeviceAddress`) only
when the IN status stage completes.  Returns the next state and the
outbound commands. -/
def ctrlStep (c : Ctrl) (e : InEv) : Ctrl × List OutCmd :=
  match e with
  | .setupReceived req =>
    if isSetAddress req then
      (⟨.ctrlStatusIn, some (req.wValue % 128)⟩, [.armTransmit 0 0])
    else if req.wLength = 0 then
      (⟨.ctrlStatusIn, none⟩, [.armTransmit 0 0])
    else if req.dirIn then
      (⟨.ctrlDataIn, none⟩, [.armTransmit 0 req.wLength])
    else
      (⟨.ctrlDataOut, none⟩, [.armReceive 0 req.wLength])
  | .inComplete =>
    match c.stage with
    | .ctrlStatusIn =>
      match c.newAddress with
      | some a => (ctrlInit, [.setDeviceAddress a])
      | none => (ctrlInit, [])
    | .ctrlDataIn => (⟨.ctrlStatusOut, none⟩, [.armReceive 0 0])
    | _ => (c, [])
  | .outComplete =>
    match c.stage with
    | .ctrlStatusOut => (ctrlInit, [])
    | .ctrlDataOut => (⟨.ctrlStatusIn, none⟩, [.armTransmit 0 0])
    | _ => (c, [])

/-- One entry of the observable event trace: an inbound peripheral
event or an outbound command. -/
inductive TraceEv
  | inp (e : InEv)
  | outp (c : OutCmd)
deriving DecidableEq

/-- The interleaved trace of a run of the control machine: each inbound
event followed by the commands its processing issued. -/
def ctrlRun (c : Ctrl) : List InEv → List TraceEv
  | [] => []
  | e :: es =>
    let s := ctrlStep c e
    .inp e :: (s.2.map .outp ++ ctrlRun s.1 es)

/-! ## Descriptor assembler string resolution (spec section 4.4) -/

/-- Where a string descriptor request is answered from: one of the fixed
Description strings, or interface `ifIdx`'s `GetString` at its
interface-internal index `intNum`. -/
inductive StrRef
  | langID
  | vendor
  | product
  | serial
  | config
  | ifString (ifIdx intNum : Nat)
deriving DecidableEq

/-- Modelled from the spec and the `USBD_IfStrCbkType` contract in
usbd_types.h: string descriptor resolution (missing `usbd.c`).  Fixed
indices 0..4 are answered directly from the Description.  For higher
indices the interface is selected by the low nibble of `iIndex`
(counting from `USBD_ISTR_INTERFACES`, per the `USBD_iStringType` enum)
while the interface-internal string index passed to `GetString` is the
high nibble of `iIndex`, exactly as documented on `USBD_IfStrCbkType`
(`intNum: interface-internal string index (high nibble of iIndex)`). -/
def stringResolve (ifCount iIndex : Nat) : Option StrRef :=
  if iIndex = USBD_ISTR_LANGID then some .langID
  else if iIndex = USBD_ISTR_VENDOR then some .vendor
  else if iIndex = USBD_ISTR_PRODUCT then some .product
  else if iIndex = USBD_ISTR_SERIAL then some .serial
  else if iIndex = USBD_ISTR_CONFIG then some .config
  else if USBD_ISTR_INTERFACES ≤ iIndex % 16 ∧
      iIndex % 16 - USBD_ISTR_INTERFACES < ifCount then
    some (.ifString (iIndex % 16 - USBD_ISTR_INTERFACES) (iIndex / 16))
  else none

/-- The resolution rule exactly as the claim words it: for indices above
the fixed range, the interface selector is the high nibble of the index
and the interface-local string index is the low nibble. -/
def stringResolveClaim (ifCount iIndex : Nat) : Option StrRef :=
  if iIndex = USBD_ISTR_LANGID then some .langID
  else if iIndex = USBD_ISTR_VENDOR then some .vendor
  else if iIndex = USBD_ISTR_PRODUCT then some .product
  else if iIndex = USBD_ISTR_SERIAL then some .serial
  else if iIndex = USBD_ISTR_CONFIG then some .config
  else if iIndex / 16 < ifCount then
    some (.ifString (iIndex / 16) (iIndex % 16))
  else none

/-- The amended resolution rule, spelt with explicit nibble selectors:
low nibble (offset by `USBD_ISTR_INTERFACES`) selects the interface,
high nibble is the interface-internal string index. -/
def stringResolveAmended (ifCount iIndex : Nat) : Option StrRef :=
  match iIndex with
  | 0 => some .langID
  | 1 => some .vendor
  | 2 => some .product
  | 3 => some .serial
  | 4 => some .config
  | _ =>
    let sel := iIndex % 16
    if USBD_ISTR_INTERFACES ≤ sel ∧ sel - USBD_ISTR_INTERFACES < ifCount then
      some (.ifString (sel - USBD_ISTR_INTERFACES) (iIndex / 16))
    else none

/-! ## Serial number encoding (spec section 4.4) -/

/-- Upper-case hexadecimal digit of a value below 16. -/
def hexDigit (n : Nat) : Char :=
  if n < 10 then Char.ofNat (48 + n) else Char.ofNat (55 + n)

/-- Modelled from the spec: the serial number string (missing
`usbd.c`): the fixed-size binary identifier
(`USBD_SerialNumberType`, `USBD_SERIAL_BCD_SIZE / 2` bytes per
usbd_types.h) is hex/BCD-encoded at query time, two characters per
byte. -/
def serialNumberChars (serial : List Nat) : List Char :=
  (serial.map (fun b => [hexDigit (b / 16), hexDigit (b % 16)])).flatten

/-! ## Concrete example states used to evaluate the theorems -/

/-- A concrete two-interface addressed device. -/
def devEx : Device :=
  { devState := .addressed
    address := 5
    configSelector := 0
    selfPowered := false
    remoteWakeup := false
    interfaces := [⟨2, 0, false⟩, ⟨1, 0, false⟩]
    ep0In := ⟨⟨0, 0⟩, 64, .idle, 0⟩
    ep0Out := ⟨⟨0, 0⟩, 64, .setup, 0⟩
    epIn := [⟨⟨0, 0⟩, 64, .disabled, 0⟩]
    epOut := [⟨⟨0, 0⟩, 64, .disabled, 0⟩] }

/-- The same device in the Configured state with both interfaces
initialized. -/
def devExC : Device :=
  { devEx with
    devState := .configured
    configSelector := 1
    interfaces := [⟨2, 0, true⟩, ⟨1, 0, true⟩] }

/-- A concrete unsupported class request (`bRequest = 0xFF`, interface
recipient, interface 0). -/
def reqEx : SetupRequest := ⟨false, .classReq, .iface, 255, 0, 0, 0⟩

/-- A concrete EP0 event sequence: a `SetAddress(5)` setup followed by
the completion of its IN status stage. -/
def evsEx : List InEv :=
  [.setupReceived ⟨false, .standard, .device, 5, 5, 0, 0⟩, .inComplete]

/-! # Theorems -/

theorem chunksGo_pos (mps : Nat) :
    ∀ fuel n p, p ∈ chunksGo mps fuel n → 0 < p := by
  intro fuel
  induction fuel with
  | zero => intro n p hp; exact absurd hp (List.not_mem_nil p)
  | succ fuel ih =>
    intro n p hp
    rw [chunksGo] at hp
    by_cases h : 0 < mps ∧ 0 < n
    · rw [if_pos h] at hp
      by_cases hle : n ≤ mps
      · rw [if_pos hle] at hp
        simp only [List.mem_singleton] at hp
        exact hp ▸ h.2
      · rw [if_neg hle] at hp
        rcases List.mem_cons.mp hp with h1 | h2
        · exact h1 ▸ h.1
        · exact ih (n - mps) p h2
    · rw [if_neg h] at hp
      exact absurd hp (List.not_mem_nil p)

theorem chunksNE_pos (mps n : Nat) : ∀ p ∈ chunksNE mps n, 0 < p :=
  fun p hp => chunksGo_pos mps n n p hp

/-- C2: for a Device-to-Host control transfer with `wLength > 0`:
a payload that is an exact multiple of the max packet size and strictly
shorter than `wLength` ends with a zero-length packet; a payload equal
to `wLength` contains no zero-length packet at all. -/
theorem dataIn_zlp_spec (mps wLength total : Nat)
    (hm : 0 < mps) (hw : 0 < wLength) :
    (total % mps = 0 → total < wLength →
      (dataInPackets mps wLength total).getLast? = some 0) ∧
    (total = wLength → ∀ p ∈ dataInPackets mps wLength total, 0 < p) := by
  constructor
  · intro hmod hlt
    have hmin : min total wLength = total := Nat.min_eq_left (le_of_lt hlt)
    simp only [dataInPackets, hmin]
    rw [if_pos ⟨hlt, hmod⟩]
    exact List.getLast?_concat _
  · intro heq p hp
    have hmin : min total wLength = wLength := by omega
    simp only [dataInPackets, hmin] at hp
    rw [if_neg (by omega)] at hp
    exact chunksNE_pos mps wLength p hp

/-- C2 witness: with max packet size 4 and `wLength = 12`, an 8-byte
payload ends in a zero-length packet, while a 12-byte payload does not
(evaluated at packet `4`, a member of the emitted sequence). -/
theorem dataIn_zlp_spec_witness :
    (dataInPackets 4 12 8).getLast? = some 0 ∧ 0 < 4 :=
  ⟨(dataIn_zlp_spec 4 12 8 (by decide) (by decide)).1 (by decide) (by decide),
   (dataIn_zlp_spec 4 12 12 (by decide) (by decide)).2 rfl 4 (by decide)⟩

theorem resetIf_comp : resetIf ∘ resetIf = resetIf :=
  funext fun _ => rfl

theorem disableEp_comp : disableEp ∘ disableEp = disableEp :=
  funext fun _ => rfl

theorem idleEp_idem (ep : EpHandle) : idleEp (idleEp ep) = idleEp ep :=
  rfl

theorem armSetupEp_idem (ep : EpHandle) :
    armSetupEp (armSetupEp ep) = armSetupEp ep :=
  rfl

/-- C3: `Reset()` is idempotent on every Device state (hence on every
reachable one), and total — it never fails. -/
theorem reset_idem (d : Device) : reset (reset d) = reset d := by
  simp only [reset, List.map_map, resetIf_comp, disableEp_comp, idleEp_idem,
    armSetupEp_idem]

/-- C4: `SetConfiguration` with any nonzero index other than the single
supported value (`USBD_MAX_CONFIGURATION_COUNT = 1`) fails with Invalid
and changes nothing; the supported value initializes every Interface
Slot, resets all alternate settings to 0 and transitions the Device to
Configured. -/
theorem setConfiguration_spec (d : Device) (c : Nat)
    (haddr : d.devState ≠ .dflt) (hc0 : c ≠ 0) :
    (c ≠ USBD_MAX_CONFIGURATION_COUNT →
      setConfigurationR d c = (.invalid, d, [])) ∧
    (c = USBD_MAX_CONFIGURATION_COUNT →
      (setConfigurationR d c).1 = .ok ∧
      (setConfigurationR d c).2.1.devState = .configured ∧
      ∀ itf ∈ (setConfigurationR d c).2.1.interfaces,
        itf.altSelector = 0 ∧ itf.initialized = true) := by
  constructor
  · intro hne
    have hgt : ¬ c ≤ USBD_MAX_CONFIGURATION_COUNT := by
      simp only [USBD_MAX_CONFIGURATION_COUNT] at hne ⊢
      omega
    simp only [setConfigurationR, if_neg haddr, if_neg hc0, if_neg hgt]
  · intro heq
    subst heq
    have h1 : USBD_MAX_CONFIGURATION_COUNT ≤ USBD_MAX_CONFIGURATION_COUNT :=
      le_rfl
    simp only [setConfigurationR, if_neg haddr, if_neg hc0, if_pos h1]
    refine ⟨by trivial, by trivial, ?_⟩
    intro itf hitf
    rcases List.mem_map.mp hitf with ⟨x, _, rfl⟩
    simp [initIf]

/-- C4 witness: on the concrete addressed device, configuration 3 is
rejected unchanged and configuration 1 configures the device. -/
theorem setConfiguration_spec_witness :
    setConfigurationR devEx 3 = (.invalid, devEx, []) ∧
    (setConfigurationR devEx 1).2.1.devState = .configured :=
  ⟨(setConfiguration_spec devEx 3 (by decide) (by decide)).1 (by decide),
   ((setConfiguration_spec devEx 1 (by decide) (by decide)).2 rfl).2.1⟩

theorem serialNumberChars_len (s : List Nat) :
    (serialNumberChars s).length = 2 * s.length := by
  induction s with
  | nil => rfl
  | cons b bs ih =>
    simp only [serialNumberChars, List.map_cons, List.flatten_cons,
      List.length_append, List.length_cons, List.length_nil] at ih ⊢
    omega

/-- C10: the serial number's binary identifier has exactly
`USBD_SERIAL_BCD_SIZE / 2 = 6` bytes, so the hex/BCD-encoded serial
number string always has exactly `USBD_SERIAL_BCD_SIZE = 12`
characters. -/
theorem serial_length_spec (s : List Nat)
    (hs : s.length = USBD_SERIAL_BCD_SIZE / 2) :
    USBD_SERIAL_BCD_SIZE / 2 = 6 ∧
    (serialNumberChars s).length = USBD_SERIAL_BCD_SIZE := by
  refine ⟨by decide, ?_⟩
  rw [serialNumberChars_len, hs]
  decide

/-- C10 witness: a concrete 6-byte identifier encodes to 12
characters. -/
theorem serial_length_spec_witness :
    (serialNumberChars [18, 52, 86, 120, 154, 188]).length =
      USBD_SERIAL_BCD_SIZE :=
  (serial_length_spec [18, 52, 86, 120, 154, 188] (by decide)).2

/-- C8 counterexample: at string index `0x15 = 21` with two interfaces,
the claim's split (interface selector = high nibble = 1, local index =
low nibble = 5) disagrees with the resolution fixed by the
`USBD_IfStrCbkType` contract in usbd_types.h (interface-internal string
index = high nibble): the claim's rule yields `ifString 1 5`, the code's
rule yields `ifString 0 1`. -/
theorem string_nibble_counterexample :
    stringResolveClaim 2 21 ≠ stringResolve 2 21 ∧
    stringResolveClaim 2 21 = some (.ifString 1 5) ∧
    stringResolve 2 21 = some (.ifString 0 1) := by
  decide

/-- C8 amended: the fixed indices (LangID=0, Vendor=1, Product=2,
Serial=3, Configuration=4) are answered directly from the Description;
every index above the fixed range is split into an interface selector
taken from its LOW nibble (offset by the first interface string index)
and an interface-local string index taken from its HIGH nibble, routed
to that Interface Slot's `GetString`. -/
theorem string_resolution_spec (ifCount iIndex : Nat) :
    stringResolve ifCount iIndex = stringResolveAmended ifCount iIndex := by
  rcases iIndex with _ | _ | _ | _ | _ | n
  · rfl
  · rfl
  · rfl
  · rfl
  · rfl
  · simp only [stringResolve, USBD_ISTR_LANGID, USBD_ISTR_VENDOR,
      USBD_ISTR_PRODUCT, USBD_ISTR_SERIAL, USBD_ISTR_CONFIG]
    rw [if_neg (by omega), if_neg (by omega), if_neg (by omega),
      if_neg (by omega), if_neg (by omega)]
    rfl

theorem epOk_disableEp (ep : EpHandle) : epOk (disableEp ep) :=
  Nat.le_refl 0

theorem epOk_idleEp (ep : EpHandle) : epOk (idleEp ep) :=
  Nat.le_refl 0

theorem epOk_armSetupEp (ep : EpHandle) : epOk (armSetupEp ep) :=
  Nat.le_refl 0

theorem epOk_armEp (len : Nat) (st : EpState) (ep : EpHandle) :
    epOk (armEp len st ep) :=
  Nat.zero_le len

theorem epOk_epProgress (n : Nat) (ep : EpHandle) (h : epOk ep) :
    epOk (epProgress n ep) := by
  simp only [epOk, epProgress] at h ⊢
  omega

theorem epOk_map {f : EpHandle → EpHandle}
    (hf : ∀ ep, epOk ep → epOk (f ep)) {l : List EpHandle}
    (hl : ∀ ep ∈ l, epOk ep) : ∀ ep ∈ l.map f, epOk ep := by
  intro ep hep
  rcases List.mem_map.mp hep with ⟨x, hx, rfl⟩
  exact hf x (hl x hx)

theorem epOk_modifyNthEp {f : EpHandle → EpHandle}
    (hf : ∀ ep, epOk ep → epOk (f ep)) :
    ∀ (l : List EpHandle) (e : Nat), (∀ ep ∈ l, epOk ep) →
      ∀ ep ∈ modifyNthEp f l e, epOk ep := by
  intro l
  induction l with
  | nil =>
    intro e h ep hep
    simp only [modifyNthEp] at hep
    exact absurd hep (List.not_mem_nil ep)
  | cons hd tl ih =>
    intro e h ep hep
    cases e with
    | zero =>
      simp only [modifyNthEp] at hep
      rcases List.mem_cons.mp hep with h1 | h2
      · exact h1 ▸ hf hd (h hd (List.mem_cons_self hd tl))
      · exact h ep (List.mem_cons_of_mem hd h2)
    | succ e =>
      simp only [modifyNthEp] at hep
      rcases List.mem_cons.mp hep with h1 | h2
      · exact h1 ▸ h hd (List.mem_cons_self hd tl)
      · exact ih e (fun x hx => h x (List.mem_cons_of_mem hd hx)) ep h2

theorem applyOp_devEpOk (d : Device) (op : Op) (h : devEpOk d) :
    devEpOk (applyOp d op) := by
  obtain ⟨h0i, h0o, hin, hout⟩ := h
  cases op with
  | busReset =>
    exact ⟨epOk_idleEp _, epOk_armSetupEp _,
      epOk_map (fun ep _ => epOk_disableEp ep) hin,
      epOk_map (fun ep _ => epOk_disableEp ep) hout⟩
  | setAddr a =>
    simp only [applyOp, setAddressR]
    split
    · exact ⟨h0i, h0o, hin, hout⟩
    · exact ⟨h0i, h0o, hin, hout⟩
  | setConfig c =>
    simp only [applyOp, setConfigurationR]
    split
    · exact ⟨h0i, h0o, hin, hout⟩
    · split
      · exact ⟨h0i, h0o,
          epOk_map (fun ep _ => epOk_disableEp ep) hin,
          epOk_map (fun ep _ => epOk_disableEp ep) hout⟩
      · split
        · exact ⟨h0i, h0o,
            epOk_map (fun ep _ => epOk_idleEp ep) hin,
            epOk_map (fun ep _ => epOk_idleEp ep) hout⟩
        · exact ⟨h0i, h0o, hin, hout⟩
  | selectAlt i a =>
    simp only [applyOp, setInterfaceR]
    split
    · split
      · split
        · exact ⟨h0i, h0o, hin, hout⟩
        · exact ⟨h0i, h0o, hin, hout⟩
      · exact ⟨h0i, h0o, hin, hout⟩
    · exact ⟨h0i, h0o, hin, hout⟩
  | armIn e len =>
    exact ⟨h0i, h0o,
      epOk_modifyNthEp (fun ep _ => epOk_armEp len .dataIn ep) d.epIn e hin,
      hout⟩
  | armOut e len =>
    exact ⟨h0i, h0o, hin,
      epOk_modifyNthEp (fun ep _ => epOk_armEp len .dataOut ep) d.epOut e hout⟩
  | xferIn e n =>
    exact ⟨h0i, h0o, epOk_modifyNthEp (epOk_epProgress n) d.epIn e hin, hout⟩
  | xferOut e n =>
    exact ⟨h0i, h0o, hin, epOk_modifyNthEp (epOk_epProgress n) d.epOut e hout⟩

theorem runOps_devEpOk (d : Device) (ops : List Op) (h : devEpOk d) :
    devEpOk (runOps d ops) := by
  induction ops generalizing d with
  | nil => exact h
  | cons op rest ih => exact ih (applyOp d op) (applyOp_devEpOk d op h)

theorem mkDevice_devEpOk (acs : List Nat) (nIn nOut : Nat) :
    devEpOk (mkDevice acs nIn nOut) := by
  refine ⟨Nat.le_refl 0, Nat.le_refl 0, ?_, ?_⟩ <;>
  · intro ep hep
    rw [List.eq_of_mem_replicate hep]
    exact Nat.le_refl 0

/-- C5: every Endpoint Slot of a freshly constructed Device satisfies
`Transfer.Progress ≤ Transfer.Length`, and the invariant is preserved by
every sequence of core operations — so it holds in every reachable
Device state, on every IN and OUT entry of both endpoint tables and on
EP0. -/
theorem ep_progress_invariant (acs : List Nat) (nIn nOut : Nat)
    (d : Device) (ops : List Op) (hd : devEpOk d) :
    devEpOk (mkDevice acs nIn nOut) ∧ devEpOk (runOps d ops) :=
  ⟨mkDevice_devEpOk acs nIn nOut, runOps_devEpOk d ops hd⟩

/-- C5 witness: the invariant holds on the concrete device after a
configuration, an endpoint arm and a partial transfer. -/
theorem ep_progress_invariant_witness :
    devEpOk (mkDevice [2] 1 1) ∧
    devEpOk (runOps devEx [.setConfig 1, .armIn 0 10, .xferIn 0 4]) :=
  ep_progress_invariant [2] 1 1 devEx [.setConfig 1, .armIn 0 10, .xferIn 0 4]
    (by decide)

theorem ifOk_resetIf (itf : IfHandle) (h : ifOk itf) : ifOk (resetIf itf) := by
  simp only [ifOk, resetIf] at h ⊢
  omega

theorem ifOk_initIf (itf : IfHandle) (h : ifOk itf) : ifOk (initIf itf) := by
  simp only [ifOk, initIf] at h ⊢
  omega

theorem ifOk_map {f : IfHandle → IfHandle}
    (hf : ∀ itf, ifOk itf → ifOk (f itf)) {l : List IfHandle}
    (hl : ∀ itf ∈ l, ifOk itf) : ∀ itf ∈ l.map f, ifOk itf := by
  intro itf hitf
  rcases List.mem_map.mp hitf with ⟨x, hx, rfl⟩
  exact hf x (hl x hx)

theorem applyOp_devIfOk (d : Device) (op : Op) (h : devIfOk d) :
    devIfOk (applyOp d op) := by
  cases op with
  | busReset => exact ifOk_map ifOk_resetIf h
  | setAddr a =>
    simp only [applyOp, setAddressR]
    split
    · exact h
    · exact h
  | setConfig c =>
    simp only [applyOp, setConfigurationR]
    split
    · exact h
    · split
      · exact ifOk_map ifOk_resetIf h
      · split
        · exact ifOk_map ifOk_initIf h
        · exact h
  | selectAlt i a =>
    simp only [applyOp, setInterfaceR]
    split
    · split
      next itf heq =>
        split
        next hlt =>
          intro x hx
          rcases List.mem_or_eq_of_mem_set hx with h1 | h1
          · exact h x h1
          · subst h1
            exact hlt
        next => exact h
      next => exact h
    · exact h
  | armIn e len => exact h
  | armOut e len => exact h
  | xferIn e n => exact h
  | xferOut e n => exact h

theorem runOps_devIfOk (d : Device) (ops : List Op) (h : devIfOk d) :
    devIfOk (runOps d ops) := by
  induction ops generalizing d with
  | nil => exact h
  | cons op rest ih => exact ih (applyOp d op) (applyOp_devIfOk d op h)

/-- C6: with every Interface Slot declaring at least one alternate
setting, the invariant `AltSelector < AltCount` holds at construction
and is preserved by every sequence of core operations; and a
SET_INTERFACE request selecting an alternate setting outside
`[0, AltCount)` is rejected with Invalid, leaving the whole Device —
in particular every `AltSelector` — unchanged. -/
theorem alt_setting_invariant (acs : List Nat) (nIn nOut : Nat)
    (d : Device) (ops : List Op) (i a : Nat) (itf : IfHandle)
    (hacs : ∀ c ∈ acs, 0 < c) (hd : devIfOk d)
    (hconf : d.devState = .configured)
    (hi : d.interfaces[i]? = some itf) (ha : itf.altCount ≤ a) :
    devIfOk (mkDevice acs nIn nOut) ∧ devIfOk (runOps d ops) ∧
    setInterfaceR d i a = (.invalid, d) := by
  refine ⟨?_, runOps_devIfOk d ops hd, ?_⟩
  · intro x hx
    rcases List.mem_map.mp hx with ⟨c, hc, rfl⟩
    exact hacs c hc
  · unfold setInterfaceR
    rw [if_pos hconf]
    simp only [hi]
    rw [if_neg (by omega)]

/-- C6 witness: on the concrete configured device, selecting alternate
setting 7 on interface 0 (which has 2 alternate settings) is rejected
unchanged, and the invariant survives a concrete operation sequence. -/
theorem alt_setting_invariant_witness :
    devIfOk (mkDevice [2, 1] 1 1) ∧
    devIfOk (runOps devExC [.selectAlt 0 1, .busReset]) ∧
    setInterfaceR devExC 0 7 = (.invalid, devExC) :=
  alt_setting_invariant [2, 1] 1 1 devExC [.selectAlt 0 1, .busReset] 0 7
    ⟨2, 0, true⟩ (by decide) (by decide) (by decide) (by decide) (by decide)

theorem range_filter_eq (n i : Nat) (h : i < n) :
    (List.range n).filter (fun j => j == i) = [i] := by
  induction n with
  | zero => omega
  | succ n ih =>
    rw [List.range_succ, List.filter_append]
    by_cases hi : i < n
    · rw [ih hi]
      have hne : ((n : Nat) == i) = false := by
        simp only [beq_eq_false_iff_ne, ne_eq]
        omega
      simp [List.filter, hne]
    · have hn : i = n := by omega
      subst hn
      have h0 : (List.range i).filter (fun j => j == i) = [] := by
        rw [List.filter_eq_nil_iff]
        intro j hj
        simp only [beq_iff_eq]
        exact Nat.ne_of_lt (List.mem_range.mp hj)
      simp [h0, List.filter]

theorem filter_forIf_deinit (n i : Nat) (h : i < n) :
    ((List.range n).map CbkEv.deinit).filter (CbkEv.forIf i) =
      [CbkEv.deinit i] := by
  rw [List.filter_map]
  have he : (CbkEv.forIf i ∘ CbkEv.deinit) = fun j => j == i := rfl
  rw [he, range_filter_eq n i h]
  rfl

theorem filter_forIf_init (n i : Nat) (h : i < n) :
    ((List.range n).map CbkEv.init).filter (CbkEv.forIf i) =
      [CbkEv.init i] := by
  rw [List.filter_map]
  have he : (CbkEv.forIf i ∘ CbkEv.init) = fun j => j == i := rfl
  rw [he, range_filter_eq n i h]
  rfl

/-- C9: on a configured device, `SetConfiguration(0)` immediately
followed by `SetConfiguration(1)` gives every Interface Slot the
callback subtrace `[Deinit, Init]`: exactly one `Deinit` before its next
`Init` — never zero and never more than one. -/
theorem deinit_before_init (d : Device) (i : Nat)
    (hconf : d.devState = .configured) (hi : i < d.interfaces.length) :
    (((setConfigurationR d 0).2.2 ++
        (setConfigurationR (setConfigurationR d 0).2.1 1).2.2).filter
      (CbkEv.forIf i)) = [.deinit i, .init i] := by
  have h0 : ¬ d.devState = .dflt := by
    rw [hconf]
    decide
  have e1 : setConfigurationR d 0 =
      (.ok,
       { d with
         devState := .addressed
         configSelector := 0
         interfaces := d.interfaces.map resetIf
         epIn := d.epIn.map disableEp
         epOut := d.epOut.map disableEp },
       deinitTrace d) := by
    unfold setConfigurationR
    rw [if_neg h0, if_pos rfl]
  have e2 : ∀ d1 : Device, d1.devState = .addressed →
      setConfigurationR d1 1 =
        (.ok,
         { d1 with
           devState := .configured
           configSelector := 1
           interfaces := d1.interfaces.map initIf
           epIn := d1.epIn.map idleEp
           epOut := d1.epOut.map idleEp },
         initTrace d1) := by
    intro d1 h1
    unfold setConfigurationR
    rw [if_neg (by rw [h1]; decide), if_neg (by decide), if_pos (by decide)]
  rw [e1, e2 _ rfl]
  dsimp only
  simp only [deinitTrace, initTrace, List.length_map]
  rw [List.filter_append, filter_forIf_deinit _ i hi, filter_forIf_init _ i hi]
  rfl

/-- C9 witness: on the concrete configured device, interface 0's
callback subtrace across `SetConfiguration(0); SetConfiguration(1)` is
exactly `[Deinit, Init]`. -/
theorem deinit_before_init_witness :
    (((setConfigurationR devExC 0).2.2 ++
        (setConfigurationR (setConfigurationR devExC 0).2.1 1).2.2).filter
      (CbkEv.forIf 0)) = [.deinit 0, .init 0] :=
  deinit_before_init devExC 0 (by decide) (by decide)

theorem sda_only_on_inComplete (c : Ctrl) (e : InEv) (a : Nat)
    (h : OutCmd.setDeviceAddress a ∈ (ctrlStep c e).2) : e = .inComplete := by
  cases e with
  | setupReceived req =>
    exfalso
    simp only [ctrlStep] at h
    repeat' split at h
    all_goals simp_all
  | inComplete => rfl
  | outComplete =>
    exfalso
    simp only [ctrlStep] at h
    repeat' split at h
    all_goals simp_all

theorem inComplete_before_sda (a : Nat) :
    ∀ (evs : List InEv) (c : Ctrl) (n : Nat),
      TraceEv.outp (.setDeviceAddress a) ∈ (ctrlRun c evs).take n →
      TraceEv.inp .inComplete ∈ (ctrlRun c evs).take n := by
  intro evs
  induction evs with
  | nil =>
    intro c n h
    simp [ctrlRun] at h
  | cons e es ih =>
    intro c n h
    cases n with
    | zero => simp at h
    | succ m =>
      simp only [ctrlRun, List.take_succ_cons] at h ⊢
      rcases List.mem_cons.mp h with h1 | h1
      · cases h1
      · rw [List.take_append_eq_append_take] at h1 ⊢
        rcases List.mem_append.mp h1 with h2 | h2
        · have he : e = .inComplete := by
            apply sda_only_on_inComplete c e a
            have hmem := List.mem_of_mem_take h2
            rcases List.mem_map.mp hmem with ⟨cmd, hcmd, hc⟩
            cases hc
            exact hcmd
          subst he
          exact List.mem_cons_self _ _
        · have hrest := ih (ctrlStep c e).1
            (m - ((ctrlStep c e).2.map TraceEv.outp).length) h2
          exact List.mem_cons_of_mem _ (List.mem_append_right _ hrest)

/-- C1: in every EP0 event sequence, a `SetDeviceAddress` command never
appears in the trace before an EP0 IN-transfer completion — for the
SET_ADDRESS control transfer (`wLength = 0`, whose only IN transfer is
the zero-length status acknowledgment) this is exactly the status-stage
completion, so the address command is issued strictly after the status
stage completes, never before. -/
theorem setAddress_after_status (evs : List InEv) (a i : Nat)
    (h : (ctrlRun ctrlInit evs)[i]? = some (.outp (.setDeviceAddress a))) :
    ∃ j < i, (ctrlRun ctrlInit evs)[j]? = some (.inp .inComplete) := by
  have hmem : TraceEv.outp (.setDeviceAddress a) ∈
      (ctrlRun ctrlInit evs).take (i + 1) := by
    refine List.getElem?_mem (n := i) ?_
    rw [List.getElem?_take, if_pos (Nat.lt_succ_self i)]
    exact h
  have hIn : TraceEv.inp .inComplete ∈ (ctrlRun ctrlInit evs).take (i + 1) :=
    inComplete_before_sda a evs ctrlInit (i + 1) hmem
  obtain ⟨n, hn, hget⟩ := List.getElem_of_mem hIn
  have hnlt : n < i + 1 := by
    rw [List.length_take] at hn
    omega
  have hgoal : (ctrlRun ctrlInit evs)[n]? = some (.inp .inComplete) := by
    have hq := List.getElem?_eq_getElem hn
    rw [hget] at hq
    rw [List.getElem?_take, if_pos hnlt] at hq
    exact hq
  have hne : n ≠ i := by
    intro he
    rw [he, h] at hgoal
    simp at hgoal
  exact ⟨n, by omega, hgoal⟩

/-- C1 witness: on the concrete `SetAddress(5)` sequence, the
`SetDeviceAddress 5` command sits at trace position 3, strictly after a
status-stage completion event. -/
theorem setAddress_after_status_witness :
    (ctrlRun ctrlInit evsEx)[3]? = some (.outp (.setDeviceAddress 5)) ∧
    ∃ j < 3, (ctrlRun ctrlInit evsEx)[j]? = some (.inp .inComplete) :=
  ⟨by decide, setAddress_after_status evsEx 5 3 (by decide)⟩

/-- C7: a class/vendor setup request that no Interface Slot accepts
(`SetupStage` rejected, or no slot claims it) stalls endpoint 0 in both
directions, returns the Device unchanged — in particular its top-level
state — and fires no `Init` or `Deinit` callback while handling the
request. -/
theorem rejected_setup_stalls (accepts : Nat → SetupRequest → Bool)
    (d : Device) (req : SetupRequest) (hcls : ¬ req.kind = .standard)
    (hrej : (attemptedIfs d req).find? (fun i => accepts i req) = none) :
    handleSetup accepts d req =
      (d, [.stallEp 0 .dIn, .stallEp 0 .dOut],
       (attemptedIfs d req).map .setupStage) ∧
    (handleSetup accepts d req).1.devState = d.devState ∧
    ∀ i : Nat, CbkEv.init i ∉ (handleSetup accepts d req).2.2 ∧
      CbkEv.deinit i ∉ (handleSetup accepts d req).2.2 := by
  have he : handleSetup accepts d req =
      (d, [.stallEp 0 .dIn, .stallEp 0 .dOut],
       (attemptedIfs d req).map .setupStage) := by
    unfold handleSetup forwardSetup
    rw [if_neg hcls, hrej]
  refine ⟨he, by rw [he], ?_⟩
  intro i
  rw [he]
  constructor
  · intro hmem
    dsimp only at hmem
    rcases List.mem_map.mp hmem with ⟨x, _, hx⟩
    cases hx
  · intro hmem
    dsimp only at hmem
    rcases List.mem_map.mp hmem with ⟨x, _, hx⟩
    cases hx

/-- C7 witness: on the concrete configured device, the unsupported
class request `bRequest = 0xFF` (claimed by no interface) stalls EP0 in
both directions with the device unchanged, and interface 0 receives no
`Init`. -/
theorem rejected_setup_stalls_witness :
    handleSetup (fun _ _ => false) devExC reqEx =
      (devExC, [.stallEp 0 .dIn, .stallEp 0 .dOut],
       (attemptedIfs devExC reqEx).map .setupStage) ∧
    CbkEv.init 0 ∉ (handleSetup (fun _ _ => false) devExC reqEx).2.2 :=
  ⟨(rejected_setup_stalls (fun _ _ => false) devExC reqEx (by decide) rfl).1,
   ((rejected_setup_stalls (fun _ _ => false) devExC reqEx (by decide)
      rfl).2.2 0).1⟩

end USBD
